import Mathlib

/-!
Verification of the bounded-concurrency parallel check dispatcher
(`ParallelChecker` in package `graph`).

The Go source is embedded as a small-step transition system over an explicit
dispatcher state.  One step corresponds to one atomic action of the Go
runtime as observed through the synchronisation primitives used by the code:

* `golang.org/x/sync/semaphore.Weighted` with capacity `maxConcurrent`
  (`sem` counts currently acquired tokens);
* the unbuffered channel `toCheck` (modelled by `queue`/`closed`; a send on
  a closed channel and a close of a closed channel panic, modelled by the
  operation-level functions `QueueCheckOp` and `FinishCloseOp`);
* `errgroup.Group` with `WithContext` (`failed` is the group's
  single-assignment first-error slot; a set `failed` also stands for the
  shared context being cancelled, since the group cancels the context on
  the first error and a caller cancellation is surfaced as the first error
  returned by a blocked `Acquire`);
* the mutex-guarded `tuple.ONRSet` of results (`results : Finset ONR`,
  each insertion atomic under the mutex).

Ghost fields `enqueued`, `dispatched` and `completed` record histories and
change only together with their non-ghost counterparts.
-/

/-- Object-and-relation triple (`core.ObjectAndRelation`). -/
structure ONR where
  objNamespace : String
  objectId : String
  relation : String
deriving DecidableEq, Repr

/-- Resolver metadata (`v1.ResolverMeta`): opaque context threaded through
dispatch requests; the dispatcher never reads its fields. -/
structure ResolverMeta where
  atRevision : String
  depthRemaining : Nat
deriving DecidableEq, Repr

/-- Check request (`v1.DispatchCheckRequest`) as built by `QueueCheck`. -/
structure DispatchCheckRequest where
  metadata : ResolverMeta
  objectAndRelation : ONR
  subject : ONR
deriving DecidableEq, Repr

/-- Outcome of one backend `DispatchCheck` call: a membership (only `member`
triggers insertion) or an error. -/
inductive CheckOutcome where
  | member
  | notMember
  | fail (e : String)
deriving DecidableEq, Repr

/-- Immutable configuration of a `ParallelChecker` as produced by
`NewParallelChecker`: the single subject and the concurrency ceiling
(`maxConcurrent`, a `uint8` in the source).  The channel, group, context,
result set and mutex components are the mutable part, modelled by
`PCState`. -/
structure ParallelChecker where
  subject : ONR
  maxConcurrent : Nat
deriving DecidableEq, Repr

/-- `NewParallelChecker`: builds the checker; the source performs no
validation of `maxConcurrent`. -/
def NewParallelChecker (subject : ONR) (maxConcurrent : Nat) : ParallelChecker :=
  { subject := subject, maxConcurrent := maxConcurrent }

/-- The request built by `QueueCheck resource meta`: metadata and resource
are passed through unchanged and the subject is the checker's fixed
subject. -/
def QueueCheckRequest (pc : ParallelChecker) (resource : ONR)
    (meta : ResolverMeta) : DispatchCheckRequest :=
  { metadata := meta, objectAndRelation := resource, subject := pc.subject }

/-- Phase of the dispatch-loop goroutine spawned by `Start`. -/
inductive LoopPhase where
  /-- Blocked in `sem.Acquire(ctx, 1)` at the top of the loop. -/
  | acquiring
  /-- Holding one token, blocked in `req, ok := <-pc.toCheck`. -/
  | reading
  /-- Channel closed; blocked in the final `sem.Acquire(ctx, maxConcurrent)`. -/
  | draining
  /-- The loop goroutine has returned. -/
  | exited
deriving DecidableEq, Repr

/-- Mutable state of a started `ParallelChecker` together with ghost
history fields. -/
structure PCState where
  /-- Tokens currently held from the weighted semaphore. -/
  sem : Nat
  /-- Requests sent to `toCheck` and not yet received by the loop. -/
  queue : List DispatchCheckRequest
  /-- Whether `toCheck` has been closed. -/
  closed : Bool
  /-- Phase of the dispatch-loop goroutine. -/
  loop : LoopPhase
  /-- Requests whose worker goroutine is currently running. -/
  running : List DispatchCheckRequest
  /-- Ghost: requests whose worker goroutine has returned. -/
  completed : List DispatchCheckRequest
  /-- Ghost: requests received by the loop, in receive order. -/
  dispatched : List DispatchCheckRequest
  /-- Ghost: requests sent by `QueueCheck`, in send order. -/
  enqueued : List DispatchCheckRequest
  /-- Contents of the `tuple.ONRSet` result collector. -/
  results : Finset ONR
  /-- First error recorded by the `errgroup` (nil while no task failed and
  the shared context is live). -/
  failed : Option String
deriving DecidableEq

/-- State right after `NewParallelChecker` + `Start`: empty channel, empty
collector, loop at its first acquire, no tokens held, no error. -/
def initState : PCState :=
  { sem := 0, queue := [], closed := false, loop := LoopPhase.acquiring,
    running := [], completed := [], dispatched := [], enqueued := [],
    results := ∅, failed := none }

/-- The distinct resources among `m` whose backend outcome is `member`:
what the result collector holds once every request of `m` has completed
without interference. -/
def membersOf (bk : DispatchCheckRequest → CheckOutcome)
    (m : Multiset DispatchCheckRequest) : Finset ONR :=
  ((m.filter (fun r => bk r = CheckOutcome.member)).map
    (fun r => r.objectAndRelation)).toFinset

/-- One atomic action of the dispatcher, for a fixed deterministic backend
`bk` and ceiling `N`.  Interleaving of the loop, the workers, enqueuing
callers, `Finish`'s close, and lifetime cancellation is arbitrary. -/
inductive Step (bk : DispatchCheckRequest → CheckOutcome) (N : Nat) :
    PCState → PCState → Prop where
  /-- `QueueCheck` rendezvous: a sender's request is accepted (the loop is
  the only receiver, so acceptance happens at a `loopRead`; splitting send
  and receive lets `queue` hold the pending senders). -/
  | enqueue (s : PCState) (r : DispatchCheckRequest) (hc : s.closed = false) :
      Step bk N s { s with queue := s.queue ++ [r], enqueued := s.enqueued ++ [r] }
  /-- `Finish`'s `close(pc.toCheck)` (first call only; see `FinishCloseOp`). -/
  | closeChan (s : PCState) (hc : s.closed = false) :
      Step bk N s { s with closed := true }
  /-- The caller-supplied lifetime is cancelled (or times out): the shared
  context ends and `e` becomes the error observed by the group. -/
  | cancel (s : PCState) (e : String) (hf : s.failed = none) :
      Step bk N s { s with failed := some e }
  /-- `sem.Acquire(ctx, 1)` at the top of the loop succeeds: needs a free
  token and a live context. -/
  | loopAcquire (s : PCState) (hl : s.loop = LoopPhase.acquiring)
      (hf : s.failed = none) (hsem : s.sem < N) :
      Step bk N s { s with sem := s.sem + 1, loop := LoopPhase.reading }
  /-- `sem.Acquire(ctx, 1)` returns the context's error: the loop returns it
  to the group (which keeps only the first error) and exits. -/
  | loopAcquireCancelled (s : PCState) (e : String)
      (hl : s.loop = LoopPhase.acquiring) (hf : s.failed = some e) :
      Step bk N s { s with loop := LoopPhase.exited }
  /-- `req, ok := <-pc.toCheck` receives a pending request: the loop spawns
  a worker goroutine for it (the worker inherits the loop's token) and goes
  back to acquiring. -/
  | loopRead (s : PCState) (r : DispatchCheckRequest)
      (rest : List DispatchCheckRequest) (hl : s.loop = LoopPhase.reading)
      (hq : s.queue = r :: rest) :
      Step bk N s { s with queue := rest,
                           dispatched := s.dispatched ++ [r],
                           running := s.running ++ [r],
                           loop := LoopPhase.acquiring }
  /-- The receive observes the closed, drained channel (`ok = false`): the
  loop releases its token and moves to the final acquire. -/
  | loopReadClosed (s : PCState) (hl : s.loop = LoopPhase.reading)
      (hq : s.queue = []) (hc : s.closed = true) :
      Step bk N s { s with sem := s.sem - 1, loop := LoopPhase.draining }
  /-- A worker's `DispatchCheck` returns `MEMBER`: it inserts the resource
  into the collector, returns nil, and its deferred release frees its
  token. -/
  | workerMember (s : PCState) (l1 l2 : List DispatchCheckRequest)
      (r : DispatchCheckRequest) (hr : s.running = l1 ++ r :: l2)
      (ho : bk r = CheckOutcome.member) :
      Step bk N s { s with running := l1 ++ l2,
                           completed := s.completed ++ [r],
                           results := insert r.objectAndRelation s.results,
                           sem := s.sem - 1 }
  /-- A worker's `DispatchCheck` returns a non-`MEMBER` membership: no
  insertion, nil return, token released. -/
  | workerNotMember (s : PCState) (l1 l2 : List DispatchCheckRequest)
      (r : DispatchCheckRequest) (hr : s.running = l1 ++ r :: l2)
      (ho : bk r = CheckOutcome.notMember) :
      Step bk N s { s with running := l1 ++ l2,
                           completed := s.completed ++ [r],
                           sem := s.sem - 1 }
  /-- A worker's `DispatchCheck` returns an error: the worker returns it to
  the group, which records it if it is the first and cancels the context;
  the token is released. -/
  | workerFail (s : PCState) (l1 l2 : List DispatchCheckRequest)
      (r : DispatchCheckRequest) (e : String) (hr : s.running = l1 ++ r :: l2)
      (ho : bk r = CheckOutcome.fail e) :
      Step bk N s { s with running := l1 ++ l2,
                           completed := s.completed ++ [r],
                           sem := s.sem - 1,
                           failed := some (s.failed.getD e) }
  /-- After the context is cancelled, a worker's `DispatchCheck` aborts with
  the context's error instead of its outcome: the group already holds the
  first error, so nothing else changes besides the release. -/
  | workerCancelled (s : PCState) (l1 l2 : List DispatchCheckRequest)
      (r : DispatchCheckRequest) (e : String) (hr : s.running = l1 ++ r :: l2)
      (hf : s.failed = some e) :
      Step bk N s { s with running := l1 ++ l2,
                           completed := s.completed ++ [r],
                           sem := s.sem - 1 }
  /-- The final `sem.Acquire(ctx, maxConcurrent)` succeeds: it needs all `N`
  tokens free, i.e. no token outstanding; the loop returns nil. -/
  | drainOk (s : PCState) (hl : s.loop = LoopPhase.draining)
      (hf : s.failed = none) (hsem : s.sem = 0) :
      Step bk N s { s with loop := LoopPhase.exited }
  /-- The final acquire observes the cancelled context and returns its
  error; the group keeps the earlier first error. -/
  | drainCancelled (s : PCState) (e : String)
      (hl : s.loop = LoopPhase.draining) (hf : s.failed = some e) :
      Step bk N s { s with loop := LoopPhase.exited }

/-- States reachable from the started dispatcher. -/
def Reachable (bk : DispatchCheckRequest → CheckOutcome) (N : Nat)
    (s : PCState) : Prop :=
  Relation.ReflTransGen (Step bk N) initState s

/-- `g.Wait()` inside `Finish` has returned: the channel was closed, the
loop goroutine and every worker goroutine have returned. -/
def FinishDone (s : PCState) : Prop :=
  s.closed = true ∧ s.loop = LoopPhase.exited ∧ s.running = []

/-- The pair `(error, collector)` returned by `Finish` once `g.Wait()` has
returned: `(err, nil)` when the group recorded an error, `(nil, results)`
otherwise. -/
def FinishReturn (s : PCState) : Option String × Option (Finset ONR) :=
  match s.failed with
  | some e => (some e, none)
  | none => (none, some s.results)

/-- Go runtime panics relevant to misuse of the dispatcher. -/
inductive GoPanic where
  | sendOnClosedChannel
  | closeOfClosedChannel
deriving DecidableEq, Repr

/-- Channel-level behaviour of `QueueCheck`: the send `pc.toCheck <- req`
panics when the channel is already closed, otherwise the request joins the
pending senders. -/
def QueueCheckOp (s : PCState) (r : DispatchCheckRequest) :
    Except GoPanic PCState :=
  if s.closed then Except.error GoPanic.sendOnClosedChannel
  else Except.ok { s with queue := s.queue ++ [r], enqueued := s.enqueued ++ [r] }

/-- Channel-level behaviour of the `close(pc.toCheck)` performed first by
`Finish`: panics when the channel is already closed. -/
def FinishCloseOp (s : PCState) : Except GoPanic PCState :=
  if s.closed then Except.error GoPanic.closeOfClosedChannel
  else Except.ok { s with closed := true }

theorem membersOf_coe_nil (bk : DispatchCheckRequest → CheckOutcome) :
    membersOf bk ↑([] : List DispatchCheckRequest) = ∅ := by
  simp [membersOf]

theorem membersOf_append_member {bk : DispatchCheckRequest → CheckOutcome}
    {r : DispatchCheckRequest} (l : List DispatchCheckRequest)
    (h : bk r = CheckOutcome.member) :
    membersOf bk ↑(l ++ [r]) = insert r.objectAndRelation (membersOf bk ↑l) := by
  ext x
  simp only [membersOf, Multiset.mem_toFinset, Multiset.mem_map, Multiset.mem_filter,
    Multiset.mem_coe, List.mem_append, List.mem_singleton, Finset.mem_insert]
  constructor
  · rintro ⟨a, ⟨ha | rfl, hm⟩, hx⟩
    · exact Or.inr ⟨a, ⟨ha, hm⟩, hx⟩
    · exact Or.inl hx.symm
  · rintro (rfl | ⟨a, ⟨ha, hm⟩, hx⟩)
    · exact ⟨r, ⟨Or.inr rfl, h⟩, rfl⟩
    · exact ⟨a, ⟨Or.inl ha, hm⟩, hx⟩

theorem membersOf_append_not_member {bk : DispatchCheckRequest → CheckOutcome}
    {r : DispatchCheckRequest} (l : List DispatchCheckRequest)
    (h : ¬ bk r = CheckOutcome.member) :
    membersOf bk ↑(l ++ [r]) = membersOf bk ↑l := by
  ext x
  simp only [membersOf, Multiset.mem_toFinset, Multiset.mem_map, Multiset.mem_filter,
    Multiset.mem_coe, List.mem_append, List.mem_singleton]
  constructor
  · rintro ⟨a, ⟨ha | rfl, hm⟩, hx⟩
    · exact ⟨a, ⟨ha, hm⟩, hx⟩
    · exact absurd hm h
  · rintro ⟨a, ⟨ha, hm⟩, hx⟩
    exact ⟨a, ⟨Or.inl ha, hm⟩, hx⟩

/-- The inductive invariant of the dispatcher transition system. -/
structure PCInv (bk : DispatchCheckRequest → CheckOutcome) (N : Nat)
    (s : PCState) : Prop where
  /-- Held tokens are exactly one per running worker, plus the loop's own
  token while it sits between its acquire and the spawn. -/
  tokenCount :
    s.sem = s.running.length + (if s.loop = LoopPhase.reading then 1 else 0)
  /-- Never more tokens than the semaphore's capacity. -/
  tokenBound : s.sem ≤ N
  /-- Every enqueued request is either already dispatched or still pending. -/
  enqSplit : s.enqueued = s.dispatched ++ s.queue
  /-- Every dispatched request has either completed or is still running. -/
  dispatchSplit :
    (s.dispatched : Multiset DispatchCheckRequest) = ↑s.completed + ↑s.running
  /-- While no error is recorded, no completed request had a failing
  backend outcome. -/
  noFailDone : s.failed = none →
    ∀ r ∈ s.completed, ∀ e, ¬ bk r = CheckOutcome.fail e
  /-- While no error is recorded, the collector holds exactly the member
  resources of the completed requests. -/
  resultsEq : s.failed = none → s.results = membersOf bk ↑s.completed
  /-- The loop leaves its read phase without an error only because the
  channel was closed and drained. -/
  drainClosed : (s.loop = LoopPhase.draining ∨ s.loop = LoopPhase.exited) →
    s.failed = none → s.closed = true ∧ s.queue = []
  /-- A successful loop exit re-acquired the whole capacity, so no token is
  outstanding. -/
  exitDrained : s.loop = LoopPhase.exited → s.failed = none → s.sem = 0

theorem PCInv_init (bk : DispatchCheckRequest → CheckOutcome) (N : Nat) :
    PCInv bk N initState := by
  refine ⟨?_, ?_, ?_, ?_, ?_, ?_, ?_, ?_⟩ <;> simp [initState, membersOf]

theorem coe_middle (l1 l2 : List DispatchCheckRequest) (r : DispatchCheckRequest) :
    (↑(l1 ++ r :: l2) : Multiset DispatchCheckRequest) = ↑(l1 ++ l2) + {r} := by
  have hp : List.Perm ((l1 ++ l2) ++ [r]) (l1 ++ r :: l2) :=
    (List.perm_append_singleton r (l1 ++ l2)).trans List.perm_middle.symm
  calc (↑(l1 ++ r :: l2) : Multiset DispatchCheckRequest)
      = ↑((l1 ++ l2) ++ [r]) := (Multiset.coe_eq_coe.mpr hp).symm
    _ = ↑(l1 ++ l2) + ↑[r] := (Multiset.coe_add _ _).symm
    _ = ↑(l1 ++ l2) + {r} := by rw [Multiset.coe_singleton]

theorem PCInv_step {bk : DispatchCheckRequest → CheckOutcome} {N : Nat}
    {s t : PCState} (hinv : PCInv bk N s) (hstep : Step bk N s t) :
    PCInv bk N t := by
  obtain ⟨h1, h2, h3, h4, h5, h6, h7, h8⟩ := hinv
  cases hstep with
  | enqueue r hc =>
      refine ⟨h1, h2, ?_, h4, h5, h6, ?_, h8⟩
      · show s.enqueued ++ [r] = s.dispatched ++ (s.queue ++ [r])
        rw [h3, List.append_assoc]
      · intro hl hf
        rcases h7 hl hf with ⟨hcl, _⟩
        rw [hc] at hcl
        simp at hcl
  | closeChan hc =>
      refine ⟨h1, h2, h3, h4, h5, h6, ?_, h8⟩
      intro hl hf
      exact ⟨rfl, (h7 hl hf).2⟩
  | cancel e hf =>
      refine ⟨h1, h2, h3, h4, ?_, ?_, ?_, ?_⟩
      · intro hf'
        simp at hf'
      · intro hf'
        simp at hf'
      · intro _ hf'
        simp at hf'
      · intro _ hf'
        simp at hf'
  | loopAcquire hl hf hsem =>
      refine ⟨?_, ?_, h3, h4, h5, h6, ?_, ?_⟩
      · show s.sem + 1 = s.running.length + _
        rw [hl] at h1
        simp at h1 ⊢
        omega
      · show s.sem + 1 ≤ N
        omega
      · intro hl'
        simp at hl'
      · intro hl'
        simp at hl'
  | loopAcquireCancelled e hl hf =>
      refine ⟨?_, h2, h3, h4, h5, h6, ?_, ?_⟩
      · show s.sem = s.running.length + _
        rw [hl] at h1
        simpa using h1
      · intro _ hf'
        rw [hf] at hf'
        simp at hf'
      · intro _ hf'
        rw [hf] at hf'
        simp at hf'
  | loopRead r rest hl hq =>
      refine ⟨?_, h2, ?_, ?_, h5, h6, ?_, ?_⟩
      · show s.sem = (s.running ++ [r]).length + _
        rw [hl] at h1
        simp at h1 ⊢
        omega
      · show s.enqueued = (s.dispatched ++ [r]) ++ rest
        rw [h3, hq, List.append_assoc]
        rfl
      · show (↑(s.dispatched ++ [r]) : Multiset DispatchCheckRequest)
            = ↑s.completed + ↑(s.running ++ [r])
        have hd : (↑(s.dispatched ++ [r]) : Multiset DispatchCheckRequest)
            = ↑s.dispatched + {r} := by simpa using coe_middle s.dispatched [] r
        have hrn : (↑(s.running ++ [r]) : Multiset DispatchCheckRequest)
            = ↑s.running + {r} := by simpa using coe_middle s.running [] r
        rw [hd, hrn, h4, add_assoc]
      · intro hl'
        simp at hl'
      · intro hl'
        simp at hl'
  | loopReadClosed hl hq hc =>
      refine ⟨?_, ?_, h3, h4, h5, h6, ?_, ?_⟩
      · show s.sem - 1 = s.running.length + _
        rw [hl] at h1
        simp at h1 ⊢
        omega
      · show s.sem - 1 ≤ N
        omega
      · intro _ _
        exact ⟨hc, hq⟩
      · intro hl'
        simp at hl'
  | workerMember l1 l2 r hr ho =>
      refine ⟨?_, ?_, h3, ?_, ?_, ?_, ?_, ?_⟩
      · show s.sem - 1 = (l1 ++ l2).length + _
        rw [hr] at h1
        by_cases hL : s.loop = LoopPhase.reading <;> simp [hL] at h1 ⊢ <;> omega
      · show s.sem - 1 ≤ N
        omega
      · show (↑s.dispatched : Multiset DispatchCheckRequest)
            = ↑(s.completed ++ [r]) + ↑(l1 ++ l2)
        have hc2 : (↑(s.completed ++ [r]) : Multiset DispatchCheckRequest)
            = ↑s.completed + {r} := by simpa using coe_middle s.completed [] r
        rw [h4, hr, coe_middle, hc2, ← add_assoc]
        exact add_right_comm _ _ _
      · intro hf x hx e'
        rcases List.mem_append.mp hx with hxl | hxr
        · exact h5 hf x hxl e'
        · rw [List.mem_singleton] at hxr
          subst hxr
          simp [ho]
      · intro hf
        rw [membersOf_append_member s.completed ho, h6 hf]
      · intro hl hf
        exact h7 hl hf
      · intro hl hf
        have := h8 hl hf
        show s.sem - 1 = 0
        omega
  | workerNotMember l1 l2 r hr ho =>
      refine ⟨?_, ?_, h3, ?_, ?_, ?_, ?_, ?_⟩
      · show s.sem - 1 = (l1 ++ l2).length + _
        rw [hr] at h1
        by_cases hL : s.loop = LoopPhase.reading <;> simp [hL] at h1 ⊢ <;> omega
      · show s.sem - 1 ≤ N
        omega
      · show (↑s.dispatched : Multiset DispatchCheckRequest)
            = ↑(s.completed ++ [r]) + ↑(l1 ++ l2)
        have hc2 : (↑(s.completed ++ [r]) : Multiset DispatchCheckRequest)
            = ↑s.completed + {r} := by simpa using coe_middle s.completed [] r
        rw [h4, hr, coe_middle, hc2, ← add_assoc]
        exact add_right_comm _ _ _
      · intro hf x hx e'
        rcases List.mem_append.mp hx with hxl | hxr
        · exact h5 hf x hxl e'
        · rw [List.mem_singleton] at hxr
          subst hxr
          simp [ho]
      · intro hf
        rw [membersOf_append_not_member s.completed (by simp [ho])]
        exact h6 hf
      · intro hl hf
        exact h7 hl hf
      · intro hl hf
        have := h8 hl hf
        show s.sem - 1 = 0
        omega
  | workerFail l1 l2 r e hr ho =>
      refine ⟨?_, ?_, h3, ?_, ?_, ?_, ?_, ?_⟩
      · show s.sem - 1 = (l1 ++ l2).length + _
        rw [hr] at h1
        by_cases hL : s.loop = LoopPhase.reading <;> simp [hL] at h1 ⊢ <;> omega
      · show s.sem - 1 ≤ N
        omega
      · show (↑s.dispatched : Multiset DispatchCheckRequest)
            = ↑(s.completed ++ [r]) + ↑(l1 ++ l2)
        have hc2 : (↑(s.completed ++ [r]) : Multiset DispatchCheckRequest)
            = ↑s.completed + {r} := by simpa using coe_middle s.completed [] r
        rw [h4, hr, coe_middle, hc2, ← add_assoc]
        exact add_right_comm _ _ _
      · intro hf'
        simp at hf'
      · intro hf'
        simp at hf'
      · intro _ hf'
        simp at hf'
      · intro _ hf'
        simp at hf'
  | workerCancelled l1 l2 r e hr hf =>
      refine ⟨?_, ?_, h3, ?_, ?_, ?_, ?_, ?_⟩
      · show s.sem - 1 = (l1 ++ l2).length + _
        rw [hr] at h1
        by_cases hL : s.loop = LoopPhase.reading <;> simp [hL] at h1 ⊢ <;> omega
      · show s.sem - 1 ≤ N
        omega
      · show (↑s.dispatched : Multiset DispatchCheckRequest)
            = ↑(s.completed ++ [r]) + ↑(l1 ++ l2)
        have hc2 : (↑(s.completed ++ [r]) : Multiset DispatchCheckRequest)
            = ↑s.completed + {r} := by simpa using coe_middle s.completed [] r
        rw [h4, hr, coe_middle, hc2, ← add_assoc]
        exact add_right_comm _ _ _
      · intro hf'
        rw [hf] at hf'
        simp at hf'
      · intro hf'
        rw [hf] at hf'
        simp at hf'
      · intro hl hf'
        exact h7 hl hf'
      · intro hl hf'
        rw [hf] at hf'
        simp at hf'
  | drainOk hl hf hsem =>
      refine ⟨?_, h2, h3, h4, h5, h6, ?_, ?_⟩
      · show s.sem = s.running.length + _
        rw [hl] at h1
        simpa using h1
      · intro _ hf'
        exact h7 (Or.inl hl) hf'
      · intro _ _
        exact hsem
  | drainCancelled e hl hf =>
      refine ⟨?_, h2, h3, h4, h5, h6, ?_, ?_⟩
      · show s.sem = s.running.length + _
        rw [hl] at h1
        simpa using h1
      · intro _ hf'
        rw [hf] at hf'
        simp at hf'
      · intro _ hf'
        rw [hf] at hf'
        simp at hf'

theorem PCInv_reachable {bk : DispatchCheckRequest → CheckOutcome} {N : Nat}
    {s : PCState} (h : Reachable bk N s) : PCInv bk N s := by
  induction h with
  | refl => exact PCInv_init bk N
  | tail _ hstep ih => exact PCInv_step ih hstep

theorem failed_stable {bk : DispatchCheckRequest → CheckOutcome} {N : Nat}
    {t u : PCState} {e : String} (hstep : Step bk N t u)
    (hf : t.failed = some e) : u.failed = some e := by
  cases hstep <;> simp_all

theorem membersOf_eq_empty {bk : DispatchCheckRequest → CheckOutcome}
    {l : List DispatchCheckRequest}
    (h : ∀ r ∈ l, ¬ bk r = CheckOutcome.member) : membersOf bk ↑l = ∅ := by
  ext x
  simp only [membersOf, Multiset.mem_toFinset, Multiset.mem_map, Multiset.mem_filter,
    Multiset.mem_coe, Finset.not_mem_empty, iff_false]
  rintro ⟨a, ⟨ha, hm⟩, _⟩
  exact h a ha hm

theorem success_results {bk : DispatchCheckRequest → CheckOutcome} {N : Nat}
    {s : PCState} (h : Reachable bk N s) (hex : s.loop = LoopPhase.exited)
    (hrun : s.running = []) (hok : s.failed = none) :
    s.results = membersOf bk ↑s.enqueued := by
  have inv := PCInv_reachable h
  have hq : s.queue = [] := (inv.drainClosed (Or.inr hex) hok).2
  have henq : s.enqueued = s.dispatched := by
    rw [inv.enqSplit, hq, List.append_nil]
  have hd : (↑s.dispatched : Multiset DispatchCheckRequest) = ↑s.completed := by
    rw [inv.dispatchSplit, hrun]
    simp
  calc s.results = membersOf bk ↑s.completed := inv.resultsEq hok
    _ = membersOf bk ↑s.dispatched := by rw [hd]
    _ = membersOf bk ↑s.enqueued := by rw [henq]

theorem zero_ceiling_inv {bk : DispatchCheckRequest → CheckOutcome}
    {s : PCState} (h : Reachable bk 0 s) :
    s.dispatched = [] ∧ s.running = [] ∧
    (s.loop = LoopPhase.acquiring ∨
      (s.loop = LoopPhase.exited ∧ ¬ s.failed = none)) := by
  induction h with
  | refl => exact ⟨rfl, rfl, Or.inl rfl⟩
  | tail hr hstep ih =>
    obtain ⟨hd, hrun, hloop⟩ := ih
    cases hstep with
    | enqueue r hc => exact ⟨hd, hrun, hloop⟩
    | closeChan hc => exact ⟨hd, hrun, hloop⟩
    | cancel e hf =>
        rcases hloop with h | ⟨h, _⟩
        · exact ⟨hd, hrun, Or.inl h⟩
        · exact ⟨hd, hrun, Or.inr ⟨h, by simp⟩⟩
    | loopAcquire hl hf hsem => exact absurd hsem (by omega)
    | loopAcquireCancelled e hl hf =>
        exact ⟨hd, hrun, Or.inr ⟨rfl, by simp [hf]⟩⟩
    | loopRead r rest hl hq =>
        rcases hloop with h | ⟨h, _⟩ <;> simp [h] at hl
    | loopReadClosed hl hq hc =>
        rcases hloop with h | ⟨h, _⟩ <;> simp [h] at hl
    | workerMember l1 l2 r hr ho =>
        rw [hrun] at hr
        simp at hr
    | workerNotMember l1 l2 r hr ho =>
        rw [hrun] at hr
        simp at hr
    | workerFail l1 l2 r e hr ho =>
        rw [hrun] at hr
        simp at hr
    | workerCancelled l1 l2 r e hr hf =>
        rw [hrun] at hr
        simp at hr
    | drainOk hl hf hsem =>
        rcases hloop with h | ⟨h, _⟩ <;> simp [h] at hl
    | drainCancelled e hl hf =>
        rcases hloop with h | ⟨h, _⟩ <;> simp [h] at hl

def subjU : ONR := { objNamespace := "user", objectId := "tom", relation := "..." }

def resA : ONR := { objNamespace := "document", objectId := "a", relation := "view" }

def metaA : ResolverMeta := { atRevision := "rev1", depthRemaining := 50 }

def reqA : DispatchCheckRequest :=
  QueueCheckRequest (NewParallelChecker subjU 1) resA metaA

def bkNone : DispatchCheckRequest → CheckOutcome := fun _ => CheckOutcome.notMember

def bkMem : DispatchCheckRequest → CheckOutcome := fun _ => CheckOutcome.member

def bkFail : DispatchCheckRequest → CheckOutcome := fun _ => CheckOutcome.fail "backend down"

def sClosed : PCState := { initState with closed := true }

def sReading : PCState := { sClosed with sem := 1, loop := LoopPhase.reading }

def sDraining : PCState := { sClosed with sem := 0, loop := LoopPhase.draining }

def sDone : PCState := { sClosed with loop := LoopPhase.exited }

theorem sDone_reachable : Reachable bkNone 1 sDone := by
  have h1 : Step bkNone 1 initState sClosed := Step.closeChan initState rfl
  have h2 : Step bkNone 1 sClosed sReading := Step.loopAcquire sClosed rfl rfl (by decide)
  have h3 : Step bkNone 1 sReading sDraining := Step.loopReadClosed sReading rfl rfl rfl
  have h4 : Step bkNone 1 sDraining sDone := Step.drainOk sDraining rfl rfl rfl
  exact Relation.ReflTransGen.head h1 (Relation.ReflTransGen.head h2
    (Relation.ReflTransGen.head h3 (Relation.ReflTransGen.head h4
      Relation.ReflTransGen.refl)))

def mEnq : PCState := { initState with queue := [reqA], enqueued := [reqA] }

def mClosed : PCState := { mEnq with closed := true }

def mReading : PCState := { mClosed with sem := 1, loop := LoopPhase.reading }

def mSpawned : PCState := { mReading with
  queue := []
  running := [reqA]
  dispatched := [reqA]
  loop := LoopPhase.acquiring }

theorem steps_to_mSpawned (bk : DispatchCheckRequest → CheckOutcome) :
    Relation.ReflTransGen (Step bk 1) initState mSpawned := by
  have h1 : Step bk 1 initState mEnq := Step.enqueue initState reqA rfl
  have h2 : Step bk 1 mEnq mClosed := Step.closeChan mEnq rfl
  have h3 : Step bk 1 mClosed mReading := Step.loopAcquire mClosed rfl rfl (by decide)
  have h4 : Step bk 1 mReading mSpawned := Step.loopRead mReading reqA [] rfl rfl
  exact Relation.ReflTransGen.head h1 (Relation.ReflTransGen.head h2
    (Relation.ReflTransGen.head h3 (Relation.ReflTransGen.head h4
      Relation.ReflTransGen.refl)))

def mWorked : PCState := { mSpawned with
  running := []
  completed := [reqA]
  results := insert resA ∅
  sem := 0 }

def mReading2 : PCState := { mWorked with sem := 1, loop := LoopPhase.reading }

def mDraining : PCState := { mWorked with sem := 0, loop := LoopPhase.draining }

def mDone : PCState := { mWorked with loop := LoopPhase.exited }

theorem mDone_reachable : Reachable bkMem 1 mDone := by
  have h5 : Step bkMem 1 mSpawned mWorked :=
    Step.workerMember mSpawned [] [] reqA rfl rfl
  have h6 : Step bkMem 1 mWorked mReading2 :=
    Step.loopAcquire mWorked rfl rfl (by decide)
  have h7 : Step bkMem 1 mReading2 mDraining :=
    Step.loopReadClosed mReading2 rfl rfl rfl
  have h8 : Step bkMem 1 mDraining mDone := Step.drainOk mDraining rfl rfl rfl
  exact (steps_to_mSpawned bkMem).trans (Relation.ReflTransGen.head h5
    (Relation.ReflTransGen.head h6 (Relation.ReflTransGen.head h7
      (Relation.ReflTransGen.head h8 Relation.ReflTransGen.refl))))

def fWorked : PCState := { mSpawned with
  running := []
  completed := [reqA]
  sem := 0
  failed := some "backend down" }

def fDone : PCState := { fWorked with loop := LoopPhase.exited }

theorem fDone_reachable : Reachable bkFail 1 fDone := by
  have h5 : Step bkFail 1 mSpawned fWorked :=
    Step.workerFail mSpawned [] [] reqA "backend down" rfl rfl
  have h6 : Step bkFail 1 fWorked fDone :=
    Step.loopAcquireCancelled fWorked "backend down" rfl rfl
  exact (steps_to_mSpawned bkFail).trans (Relation.ReflTransGen.head h5
    (Relation.ReflTransGen.head h6 Relation.ReflTransGen.refl))

def zCancelled : PCState := { sClosed with failed := some "context canceled" }

def zDone : PCState := { zCancelled with loop := LoopPhase.exited }

theorem zDone_reachable : Reachable bkNone 0 zDone := by
  have h1 : Step bkNone 0 initState sClosed := Step.closeChan initState rfl
  have h2 : Step bkNone 0 sClosed zCancelled :=
    Step.cancel sClosed "context canceled" rfl
  have h3 : Step bkNone 0 zCancelled zDone :=
    Step.loopAcquireCancelled zCancelled "context canceled" rfl rfl
  exact Relation.ReflTransGen.head h1 (Relation.ReflTransGen.head h2
    (Relation.ReflTransGen.head h3 Relation.ReflTransGen.refl))

/-- C1: for every backend, every ceiling `maxConcurrent ≥ 1` and every
reachable instant of a run, at most `maxConcurrent` backend check calls
(worker goroutines) execute concurrently: the loop acquires one token
before reading each request, each worker holds exactly that token for the
duration of its call and releases it on completion. -/
theorem C1_bounded_concurrency (bk : DispatchCheckRequest → CheckOutcome)
    (N : Nat) (hN : 1 ≤ N) (s : PCState) (hs : Reachable bk N s) :
    s.running.length ≤ N := by
  have inv := PCInv_reachable hs
  have h1 := inv.tokenCount
  have h2 := inv.tokenBound
  by_cases hL : s.loop = LoopPhase.reading <;> simp [hL] at h1 <;> omega

theorem C1_bounded_concurrency_witness : mSpawned.running.length ≤ 1 :=
  C1_bounded_concurrency bkMem 1 (by decide) mSpawned (steps_to_mSpawned bkMem)

/-- C2: in a completed run, if any dispatched check's backend outcome is an
error then `Finish` returns an error — the group's single-assignment first
error — together with a nil collector; `Finish` never returns both a
collector and an error; and a recorded first error is never overwritten by
a later one. -/
theorem C2_first_error_wins (bk : DispatchCheckRequest → CheckOutcome)
    (N : Nat) (s : PCState) (hs : Reachable bk N s) (hdone : FinishDone s) :
    ((∃ r ∈ s.dispatched, ∃ e, bk r = CheckOutcome.fail e) →
        ∃ e0, s.failed = some e0 ∧ FinishReturn s = (some e0, none))
    ∧ (∀ e, s.failed = some e → FinishReturn s = (some e, none))
    ∧ ((FinishReturn s).1.isSome → (FinishReturn s).2 = none)
    ∧ (∀ t u e, Step bk N t u → t.failed = some e → u.failed = some e) := by
  have inv := PCInv_reachable hs
  obtain ⟨hc, hex, hrun⟩ := hdone
  refine ⟨?_, ?_, ?_, ?_⟩
  · rintro ⟨r, hrd, e, he⟩
    cases hne : s.failed with
    | none =>
        have hdc : (↑s.dispatched : Multiset DispatchCheckRequest)
            = ↑s.completed := by
          rw [inv.dispatchSplit, hrun]
          simp
        have hrc : r ∈ s.completed := by
          have hm : r ∈ (↑s.dispatched : Multiset DispatchCheckRequest) :=
            Multiset.mem_coe.mpr hrd
          rw [hdc] at hm
          exact Multiset.mem_coe.mp hm
        exact absurd he (inv.noFailDone hne r hrc e)
    | some e0 =>
        exact ⟨e0, rfl, by simp [FinishReturn, hne]⟩
  · intro e he
    simp [FinishReturn, he]
  · cases hne : s.failed with
    | none => simp [FinishReturn, hne]
    | some e0 => simp [FinishReturn, hne]
  · intro t u e hstep hf
    exact failed_stable hstep hf

theorem C2_first_error_wins_witness :
    FinishReturn fDone = (some "backend down", none) :=
  (C2_first_error_wins bkFail 1 fDone fDone_reachable ⟨rfl, rfl, rfl⟩).2.1
    "backend down" rfl

/-- C3: in a completed run with no recorded error, `Finish` returns the
collector holding exactly the distinct resources among all enqueued
requests whose backend outcome is `MEMBER` — a function of the enqueued
requests only, hence independent of completion order — and the collector
is empty when every outcome is `NOT_MEMBER`. -/
theorem C3_success_collects_members (bk : DispatchCheckRequest → CheckOutcome)
    (N : Nat) (s : PCState) (hs : Reachable bk N s) (hdone : FinishDone s)
    (hok : s.failed = none) :
    FinishReturn s = (none, some (membersOf bk ↑s.enqueued))
    ∧ ((∀ r ∈ s.enqueued, bk r = CheckOutcome.notMember) →
        FinishReturn s = (none, some ∅)) := by
  have hres := success_results hs hdone.2.1 hdone.2.2 hok
  constructor
  · simp [FinishReturn, hok, hres]
  · intro hall
    have hemp : membersOf bk ↑s.enqueued = ∅ :=
      membersOf_eq_empty (fun r hr => by simp [hall r hr])
    simp [FinishReturn, hok, hres, hemp]

theorem C3_success_collects_members_witness :
    FinishReturn mDone = (none, some (membersOf bkMem ↑mDone.enqueued)) :=
  (C3_success_collects_members bkMem 1 mDone mDone_reachable ⟨rfl, rfl, rfl⟩
    rfl).1

/-- C4: the loop returns success only after re-acquiring the full ceiling
`N`, which forces every worker to have completed and released its token:
in any reachable state where the loop has exited without a recorded error,
no token is held, no worker is running, every dispatched request has
completed, and the collector already holds exactly their member resources,
so the read in `Finish` can lose no update. -/
theorem C4_drain_before_success (bk : DispatchCheckRequest → CheckOutcome)
    (N : Nat) (s : PCState) (hs : Reachable bk N s)
    (hexit : s.loop = LoopPhase.exited) (hok : s.failed = none) :
    s.sem = 0 ∧ s.running = [] ∧
    (↑s.completed : Multiset DispatchCheckRequest) = ↑s.dispatched ∧
    s.results = membersOf bk ↑s.dispatched := by
  have inv := PCInv_reachable hs
  have hsem := inv.exitDrained hexit hok
  have h1 := inv.tokenCount
  rw [hexit] at h1
  simp at h1
  have hrun : s.running = [] := by
    rw [hsem] at h1
    exact List.length_eq_zero.mp h1.symm
  have hdc : (↑s.completed : Multiset DispatchCheckRequest) = ↑s.dispatched := by
    rw [inv.dispatchSplit, hrun]
    simp
  refine ⟨hsem, hrun, hdc, ?_⟩
  rw [inv.resultsEq hok, hdc]

theorem C4_drain_before_success_witness :
    mDone.sem = 0 ∧ mDone.running = [] ∧
    (↑mDone.completed : Multiset DispatchCheckRequest) = ↑mDone.dispatched ∧
    mDone.results = membersOf bkMem ↑mDone.dispatched :=
  C4_drain_before_success bkMem 1 mDone mDone_reachable rfl rfl

/-- C5: a completed run in which no check was ever enqueued and no error
was recorded returns an empty collector and a nil error. -/
theorem C5_zero_checks (bk : DispatchCheckRequest → CheckOutcome) (N : Nat)
    (s : PCState) (hs : Reachable bk N s) (hdone : FinishDone s)
    (henq : s.enqueued = []) (hok : s.failed = none) :
    FinishReturn s = (none, some ∅) := by
  have hres := success_results hs hdone.2.1 hdone.2.2 hok
  rw [henq, membersOf_coe_nil] at hres
  simp [FinishReturn, hok, hres]

theorem C5_zero_checks_witness : FinishReturn sDone = (none, some ∅) :=
  C5_zero_checks bkNone 1 sDone sDone_reachable ⟨rfl, rfl, rfl⟩ rfl rfl

/-- C6: the request delivered for each enqueue carries exactly the
resolver metadata and candidate resource passed to that `QueueCheck` call,
unchanged, and its subject is exactly the single subject fixed at
`NewParallelChecker`. -/
theorem C6_request_passthrough (subject resource : ONR) (meta : ResolverMeta)
    (maxConcurrent : Nat) :
    (QueueCheckRequest (NewParallelChecker subject maxConcurrent) resource
        meta).metadata = meta
    ∧ (QueueCheckRequest (NewParallelChecker subject maxConcurrent) resource
        meta).objectAndRelation = resource
    ∧ (QueueCheckRequest (NewParallelChecker subject maxConcurrent) resource
        meta).subject = subject :=
  ⟨rfl, rfl, rfl⟩

/-- C7 counterexample: construction with `maxConcurrent = 0` (the only
`uint8` value below 1) is not rejected: `NewParallelChecker` returns an
ordinary dispatcher whose started state accepts operations (here the close
action), refuting the claimed rejection. -/
theorem C7_counterexample :
    NewParallelChecker subjU 0 = { subject := subjU, maxConcurrent := 0 }
    ∧ Step bkNone 0 initState sClosed :=
  ⟨rfl, Step.closeChan initState rfl⟩

/-- C7 amended: `NewParallelChecker` accepts any `maxConcurrent`, 0
included, without validation and returns a dispatcher; a dispatcher built
with ceiling 0 is unusable only in the sense that its loop never
dispatches any check. -/
theorem C7_amended (subject : ONR) (n : Nat)
    (bk : DispatchCheckRequest → CheckOutcome) (s : PCState)
    (hs : Reachable bk 0 s) :
    NewParallelChecker subject n = { subject := subject, maxConcurrent := n }
    ∧ s.dispatched = [] :=
  ⟨rfl, (zero_ceiling_inv hs).1⟩

theorem C7_amended_witness :
    NewParallelChecker subjU 0 = { subject := subjU, maxConcurrent := 0 }
    ∧ zDone.dispatched = [] :=
  C7_amended subjU 0 bkNone zDone zDone_reachable

/-- C8: once the completion signal has closed the request channel,
`QueueCheck`'s send panics (send on closed channel): a loud failure, never
a silent drop of the check or a state change. -/
theorem C8_enqueue_after_finish (s : PCState) (r : DispatchCheckRequest)
    (hc : s.closed = true) :
    QueueCheckOp s r = Except.error GoPanic.sendOnClosedChannel := by
  simp [QueueCheckOp, hc]

theorem C8_enqueue_after_finish_witness :
    QueueCheckOp sDone reqA = Except.error GoPanic.sendOnClosedChannel :=
  C8_enqueue_after_finish sDone reqA rfl

/-- C9: `Finish` is single-shot: after a completed `Finish` the channel is
closed, so a second `Finish`'s `close(pc.toCheck)` panics (close of a
closed channel), regardless of how many checks were enqueued. -/
theorem C9_finish_single_shot (bk : DispatchCheckRequest → CheckOutcome)
    (N : Nat) (s : PCState) (hs : Reachable bk N s) (hdone : FinishDone s) :
    FinishCloseOp s = Except.error GoPanic.closeOfClosedChannel := by
  simp [FinishCloseOp, hdone.1]

theorem C9_finish_single_shot_witness :
    FinishCloseOp mDone = Except.error GoPanic.closeOfClosedChannel :=
  C9_finish_single_shot bkMem 1 mDone mDone_reachable ⟨rfl, rfl, rfl⟩

/-- C10: with ceiling 0 — which construction accepts — the loop's first
token acquisition can never succeed: in every reachable state nothing has
been dispatched and the loop never reaches its read; `Finish`'s wait can
only return once the lifetime's cancellation error has been recorded, and
`Finish` then returns that error with a nil collector. -/
theorem C10_zero_ceiling_never_dispatches
    (bk : DispatchCheckRequest → CheckOutcome) (s : PCState)
    (hs : Reachable bk 0 s) :
    s.dispatched = [] ∧ ¬ s.loop = LoopPhase.reading ∧
    (FinishDone s → ∃ e, s.failed = some e ∧ FinishReturn s = (some e, none)) := by
  obtain ⟨hd, hrun, hloop⟩ := zero_ceiling_inv hs
  refine ⟨hd, ?_, ?_⟩
  · rcases hloop with h | ⟨h, _⟩ <;> rw [h] <;> simp
  · rintro ⟨hc, hex, -⟩
    rcases hloop with h | ⟨-, hf⟩
    · rw [hex] at h
      simp at h
    · cases hne : s.failed with
      | none => exact absurd hne hf
      | some e => exact ⟨e, rfl, by simp [FinishReturn, hne]⟩

theorem C10_zero_ceiling_never_dispatches_witness :
    zDone.dispatched = [] ∧ ¬ zDone.loop = LoopPhase.reading ∧
    (FinishDone zDone → ∃ e, zDone.failed = some e ∧
      FinishReturn zDone = (some e, none)) :=
  C10_zero_ceiling_never_dispatches bkNone zDone zDone_reachable
